import Mathlib

/-!
Verification of the upload/analysis orchestration core of the Personal
Digital Twin wizard (React frontend).  The definitions below are shallow
embeddings of the TypeScript source files:

* `validateFile`         : ResumeUpload.tsx, `validateFile`
* `validateUsername`     : GitHubConnect.tsx, `validateUsername`
* `submitAttempt`        : GitHubConnect.tsx, `handleSubmit` together with
  the `disabled` gating of the username input and the submit button
* `handleGitHubConnect`  : App.tsx, `handleGitHubConnect` (the orchestrator)
* `uploadResumeFormData` : frontend/src/utils/api.ts, `uploadResume`
* `handleExport`         : ResultsDisplay.tsx, `handleExport`
-/

/-- Metadata of a browser `File` object (`name`, `size`, `type`); the
validators and the exporter never inspect the content. -/
structure JSFile where
  name : String
  size : Nat
  mimeType : String
deriving DecidableEq, Repr

/-- `validTypes` from ResumeUpload.tsx: the MIME allow-list. -/
def validTypes : List String :=
  ["application/pdf", "application/msword",
   "application/vnd.openxmlformats-officedocument.wordprocessingml.document"]

/-- `maxSize` from ResumeUpload.tsx: `10 * 1024 * 1024` bytes. -/
def maxSize : Nat := 10 * 1024 * 1024

/-- The three observable outcomes of `validateFile` in ResumeUpload.tsx:
`Accepted` is `return true` with the error cleared, `UnsupportedType` is
the `Please upload a PDF or Word document` rejection, `TooLarge` is the
`File size must be less than 10MB` rejection. -/
inductive UploadOutcome where
  | Accepted
  | UnsupportedType
  | TooLarge
deriving DecidableEq, Repr

/-- ResumeUpload.tsx `validateFile`: rejects a MIME type outside
`validTypes` first, then a size above `maxSize`, else accepts. -/
def validateFile (file : JSFile) : UploadOutcome :=
  if file.mimeType ∉ validTypes then .UnsupportedType
  else if file.size > maxSize then .TooLarge
  else .Accepted

/-- `[a-z\d]` under the `/i` flag: an ASCII letter or digit. -/
def isAlnumAscii (c : Char) : Bool := c.isAlpha || c.isDigit

/-- The characters removed by JavaScript `String.prototype.trim`
(ECMAScript WhiteSpace and LineTerminator). -/
def jsWhitespaceChars : List Char :=
  [' ', '\t', '\n', '\r', '\x0b', '\x0c',
   '\u00a0', '\u1680', '\u2000', '\u2001', '\u2002', '\u2003',
   '\u2004', '\u2005', '\u2006', '\u2007', '\u2008', '\u2009',
   '\u200a', '\u2028', '\u2029', '\u202f', '\u205f', '\u3000', '\ufeff']

/-- Whether `c` is JavaScript whitespace. -/
def isJsSpace (c : Char) : Bool := decide (c ∈ jsWhitespaceChars)

/-- JavaScript `trim` on a character list: drop whitespace at both ends. -/
def jsTrimList (l : List Char) : List Char :=
  ((l.dropWhile isJsSpace).reverse.dropWhile isJsSpace).reverse

/-- JavaScript `String.prototype.trim`. -/
def jsTrim (s : String) : String := ⟨jsTrimList s.data⟩

/-- Matcher for the tail part `(?:[a-z\d]|-(?=[a-z\d]))*` of the GitHub
username regex in GitHubConnect.tsx: each character is either
alphanumeric, or a hyphen whose lookahead sees an alphanumeric character. -/
def tailMatch : List Char → Bool
  | [] => true
  | c :: rest =>
    if isAlnumAscii c then tailMatch rest
    else if c = '-' then
      match rest with
      | [] => false
      | d :: _ => isAlnumAscii d && tailMatch rest
    else false

/-- The regex test `/^[a-z\d](?:[a-z\d]|-(?=[a-z\d])){0,38}$/i.test value`
from GitHubConnect.tsx: a leading alphanumeric character followed by at
most 38 further characters accepted by `tailMatch`. -/
def usernameRegexTest (s : String) : Bool :=
  match s.data with
  | [] => false
  | c :: rest => isAlnumAscii c && decide (rest.length ≤ 38) && tailMatch rest

/-- The three observable outcomes of `validateUsername` in
GitHubConnect.tsx: `Empty` is the `Please enter a GitHub username`
rejection, `InvalidFormat` the `Please enter a valid GitHub username`
rejection, `Accepted` is `return true`. -/
inductive UsernameOutcome where
  | Empty
  | InvalidFormat
  | Accepted
deriving DecidableEq, Repr

/-- GitHubConnect.tsx `validateUsername`: empty trim fails first, then the
regex is tested, else the handle is accepted. -/
def validateUsername (value : String) : UsernameOutcome :=
  if jsTrim value = "" then .Empty
  else if usernameRegexTest value then .Accepted
  else .InvalidFormat

/-- `Empty` outcome requires the trimmed value to be empty; hence the spec
grammar for C7 needs a predicate for the claim wording
`no adjacent hyphens`: neighbouring characters are not both hyphens. -/
def noTwoHyphens (a b : Char) : Prop := ¬(a = '-' ∧ b = '-')

instance (a b : Char) : Decidable (noTwoHyphens a b) :=
  inferInstanceAs (Decidable (¬(a = '-' ∧ b = '-')))

/-- Pair relation used to characterise `tailMatch`: a hyphen must be
immediately followed by an alphanumeric character. -/
def hyphenThenAlnum (a b : Char) : Prop := a = '-' → isAlnumAscii b = true

instance (a b : Char) : Decidable (hyphenThenAlnum a b) :=
  inferInstanceAs (Decidable (a = '-' → isAlnumAscii b = true))

/-- The username grammar exactly as the claim states it: 1 to 39
characters, each alphanumeric or a hyphen, hyphens neither adjacent to
each other nor at either end. -/
def GithubHandleGrammar (s : String) : Prop :=
  1 ≤ s.data.length ∧ s.data.length ≤ 39 ∧
  (∀ c ∈ s.data, isAlnumAscii c = true ∨ c = '-') ∧
  s.data.head? ≠ some '-' ∧ s.data.getLast? ≠ some '-' ∧
  List.Chain' noTwoHyphens s.data

instance (s : String) : Decidable (GithubHandleGrammar s) :=
  inferInstanceAs (Decidable (1 ≤ s.data.length ∧ s.data.length ≤ 39 ∧
    (∀ c ∈ s.data, isAlnumAscii c = true ∨ c = '-') ∧
    s.data.head? ≠ some '-' ∧ s.data.getLast? ≠ some '-' ∧
    List.Chain' noTwoHyphens s.data))

/-- GitHubConnect.tsx: the username input carries
`disabled={isProcessing}` and the submit button
`disabled={isProcessing || !username.trim()}`, so no submit event can
fire while a run is outstanding; when a submit event does fire,
`handleSubmit` invokes `onConnect username` only if `validateUsername`
accepts.  The result is `some u` exactly when `onConnect u` fires. -/
def submitAttempt (isProcessing : Bool) (username : String) : Option String :=
  if isProcessing then none
  else if jsTrim username = "" then none
  else if validateUsername username = .Accepted then some username
  else none

/-- `ResumeAnalysisResponse.data` from frontend/src/utils/api.ts. -/
structure ResumeData where
  skills : List String
  experience : List String
  education : List String
  summary : String
deriving DecidableEq, Repr

/-- An entry of `GitHubAnalysisResponse.data.topProjects`. -/
structure TopProject where
  name : String
  description : String
  stars : Nat
  language : String
deriving DecidableEq, Repr

/-- `GitHubAnalysisResponse.data` from frontend/src/utils/api.ts. -/
structure GitHubData where
  username : String
  repositories : Nat
  languages : List String
  contributions : Nat
  topProjects : List TopProject
deriving DecidableEq, Repr

/-- Body of a response to POST /resume/analyze.  The TypeScript interface
declares `data` as required, but the running code never relies on that, so
the embedding keeps it optional. -/
structure ResumeAnalysisResponse where
  success : Bool
  data : Option ResumeData
  message : Option String
deriving DecidableEq, Repr

/-- Body of a response to POST /github/analyze. -/
structure GitHubAnalysisResponse where
  success : Bool
  data : Option GitHubData
  message : Option String
deriving DecidableEq, Repr

/-- Settlement of an awaited call: `resolve` is a fulfilled promise
(`uploadResume`/`analyzeGitHub` returned the response body), `reject` is a
thrown error carrying `error.message` (network failure or non-2xx status,
which axios turns into a rejection). -/
inductive CallOutcome (α : Type) where
  | resolve (value : α)
  | reject (message : String)
deriving DecidableEq, Repr

/-- The `twinData` state of App.tsx (`DigitalTwinData`): every field
starts absent.  `githubData` is the field the spec calls
`githubAnalysis`. -/
structure TwinData where
  resume : Option JSFile := none
  resumeAnalysis : Option ResumeData := none
  githubUsername : Option String := none
  githubData : Option GitHubData := none
deriving DecidableEq, Repr

/-- The component state of App.tsx: `step`, `twinData`, `isProcessing`. -/
structure AppState where
  step : Nat := 1
  twinData : TwinData := {}
  isProcessing : Bool := false
deriving DecidableEq, Repr

/-- Observable events of one orchestration run, in program order:
invoking `uploadResume`, its settlement (the code logs success and stores
the data on fulfilment, logs and swallows the error on rejection),
invoking `analyzeGitHub`, and the blocking `alert` of the failure path. -/
inductive Event where
  | callResume (fileName : String)
  | resumeSettled (fulfilled : Bool)
  | callGitHub (username : String)
  | alert (message : String)
deriving DecidableEq, Repr

/-- JavaScript `a || b` for an optional string `a`: `b` when `a` is
absent or empty (both are falsy). -/
def orElseStr (a : Option String) (b : String) : String :=
  match a with
  | some s => if s = "" then b else s
  | none => b

/-- App.tsx `handleGitHubConnect username`, run to completion against
fixed outcomes of the two awaited calls.

The handler sets `isProcessing := true` and stores the submitted handle,
then (Stage A) if the closed-over `twinData.resume` is present it awaits
`uploadResume`: on fulfilment it stores `resumeResult.data` as
`resumeAnalysis` without inspecting the body's `success` flag, on
rejection it only logs.  It then (Stage B) awaits `analyzeGitHub`: a
fulfilled body with `success` set stores the payload, clears
`isProcessing` and advances to step 3; a body with `success` false is
thrown, and the catch handler clears `isProcessing` and raises a blocking
alert without touching `step` or `twinData`. -/
def handleGitHubConnect (st : AppState) (username : String)
    (resumeCall : JSFile → CallOutcome ResumeAnalysisResponse)
    (githubCall : String → CallOutcome GitHubAnalysisResponse) :
    AppState × List Event :=
  let st1 : AppState :=
    { st with isProcessing := true,
              twinData := { st.twinData with githubUsername := some username } }
  let afterA : AppState × List Event :=
    match st.twinData.resume with
    | none => (st1, [])
    | some file =>
      match resumeCall file with
      | .resolve rr =>
        ({ st1 with twinData := { st1.twinData with resumeAnalysis := rr.data } },
         [.callResume file.name, .resumeSettled true])
      | .reject _ =>
        (st1, [.callResume file.name, .resumeSettled false])
  match githubCall username with
  | .resolve r =>
    if r.success then
      ({ afterA.1 with
          twinData := { afterA.1.twinData with
                          githubUsername := some username,
                          githubData := r.data },
          isProcessing := false,
          step := 3 },
       afterA.2 ++ [.callGitHub username])
    else
      ({ afterA.1 with isProcessing := false },
       afterA.2 ++ [.callGitHub username,
                    .alert ("GitHub analysis failed: " ++
                            orElseStr r.message "GitHub analysis failed")])
  | .reject msg =>
    ({ afterA.1 with isProcessing := false },
     afterA.2 ++ [.callGitHub username, .alert ("GitHub analysis failed: " ++ msg)])

/-- A value appended to a multipart `FormData` body. -/
inductive FormValue where
  | fileVal (f : JSFile)
  | strVal (s : String)
deriving DecidableEq, Repr

/-- frontend/src/utils/api.ts `uploadResume (file)`: the multipart body
sent to POST /resume/analyze.  The function declares a single `file`
parameter and appends only `formData.append` of the resume file, so the
username argument that App.tsx passes in second position is dropped and
no `username` field is appended. -/
def uploadResumeFormData (file : JSFile) : List (String × FormValue) :=
  [("resume", .fileVal file)]

/-- frontend/src/utils/api.ts `analyzeGitHub username`: the JSON body
sent to POST /github/analyze. -/
def analyzeGitHubBody (username : String) : List (String × FormValue) :=
  [("username", .strVal username)]

/-- A JavaScript object property value, as far as `handleExport` needs:
`undef` models `undefined` (an optional-chaining miss). -/
inductive JsValue where
  | undef
  | str (s : String)
deriving DecidableEq, Repr

/-- The object literal built by `handleExport` in ResultsDisplay.tsx:
`resume` is `twinData.resume?.name`, `github` is
`twinData.githubUsername`, `timestamp` is `new Date().toISOString()`,
passed in here as `nowIso` since the clock is outside the embedding. -/
def exportObject (td : TwinData) (nowIso : String) : List (String × JsValue) :=
  [("resume", match td.resume with | some f => .str f.name | none => .undef),
   ("github", match td.githubUsername with | some u => .str u | none => .undef),
   ("timestamp", .str nowIso)]

/-- `JSON.stringify` on a flat object of string-or-undefined properties:
properties whose value is `undefined` are omitted from the output. -/
def jsonStringifyPairs (o : List (String × JsValue)) : List (String × String) :=
  o.filterMap fun p =>
    match p.2 with
    | .undef => none
    | .str s => some (p.1, s)

/-- ResultsDisplay.tsx `handleExport`: the key/value pairs of the JSON
artifact downloaded as digital-twin.json. -/
def handleExport (td : TwinData) (nowIso : String) : List (String × String) :=
  jsonStringifyPairs (exportObject td nowIso)

/-- Sample resume file used by concrete witnesses. -/
def sampleFile : JSFile :=
  { name := "resume.pdf", size := 512000, mimeType := "application/pdf" }

/-- Sample resume payload used by concrete witnesses. -/
def sampleResumeData : ResumeData :=
  { skills := ["python"], experience := ["intern"], education := ["bs"],
    summary := "summary" }

/-- Sample GitHub payload used by concrete witnesses. -/
def sampleGitHubData : GitHubData :=
  { username := "octocat", repositories := 2, languages := ["TypeScript"],
    contributions := 10, topProjects := [] }

/-- A state on step 2 with a stored resume, as left by step 1. -/
def stateStep2 : AppState :=
  { step := 2, twinData := { resume := some sampleFile }, isProcessing := false }

/-- C6: `validateFile` returns `Accepted` exactly for files whose MIME
type is PDF, legacy Word or OOXML Word and whose size is at most
10 MiB; it returns `UnsupportedType` for every file with a MIME type
outside the allow-list, and `TooLarge` for every allowed-type file whose
size exceeds the limit. -/
theorem validateFile_spec (f : JSFile) :
    (validateFile f = .Accepted ↔
      ((f.mimeType = "application/pdf" ∨ f.mimeType = "application/msword" ∨
        f.mimeType = "application/vnd.openxmlformats-officedocument.wordprocessingml.document") ∧
       f.size ≤ 10 * 1024 * 1024)) ∧
    (¬(f.mimeType = "application/pdf" ∨ f.mimeType = "application/msword" ∨
       f.mimeType = "application/vnd.openxmlformats-officedocument.wordprocessingml.document") →
      validateFile f = .UnsupportedType) ∧
    ((f.mimeType = "application/pdf" ∨ f.mimeType = "application/msword" ∨
      f.mimeType = "application/vnd.openxmlformats-officedocument.wordprocessingml.document") →
     f.size > 10 * 1024 * 1024 → validateFile f = .TooLarge) := by
  have hmem : f.mimeType ∈ validTypes ↔
      (f.mimeType = "application/pdf" ∨ f.mimeType = "application/msword" ∨
       f.mimeType = "application/vnd.openxmlformats-officedocument.wordprocessingml.document") := by
    simp [validTypes]
  by_cases hm : f.mimeType ∈ validTypes
  · by_cases hs : f.size > maxSize
    · refine ⟨?_, ?_, ?_⟩
      · simp only [validateFile, hm, not_true_eq_false, if_false, hs, if_true]
        constructor
        · intro h; cases h
        · rintro ⟨-, hle⟩
          exact absurd hs (by simpa [maxSize] using Nat.not_lt.mpr hle)
      · intro h; exact absurd (hmem.mp hm) h
      · intro _ _; simp [validateFile, hm, hs]
    · refine ⟨?_, ?_, ?_⟩
      · simp only [validateFile, hm, not_true_eq_false, if_false, hs, if_false]
        simp only [maxSize] at hs
        exact ⟨fun _ => ⟨hmem.mp hm, Nat.not_lt.mp hs⟩, fun _ => trivial⟩
      · intro h; exact absurd (hmem.mp hm) h
      · intro _ hgt
        exact absurd hgt (by simpa [maxSize] using hs)
  · refine ⟨?_, ?_, ?_⟩
    · simp only [validateFile, hm, not_false_eq_true, if_true]
      constructor
      · intro h; cases h
      · rintro ⟨hd, -⟩; exact absurd (hmem.mpr hd) hm
    · intro _; simp [validateFile, hm]
    · intro hd _; exact absurd (hmem.mpr hd) hm

theorem validateFile_spec_witness :
    validateFile { name := "resume.pdf", size := 512000, mimeType := "application/pdf" } = .Accepted ∧
    validateFile { name := "notes.txt", size := 10, mimeType := "text/plain" } = .UnsupportedType ∧
    validateFile { name := "big.pdf", size := 10485761, mimeType := "application/pdf" } = .TooLarge := by
  refine ⟨?_, ?_, ?_⟩
  · exact (validateFile_spec _).1.mpr ⟨Or.inl rfl, by decide⟩
  · exact (validateFile_spec _).2.1 (by decide)
  · exact (validateFile_spec _).2.2 (Or.inl rfl) (by decide)

/-- C8: while `isProcessing` is true the username input and the submit
button are disabled, so a submission attempt never fires `onConnect` and
no second orchestration run starts. -/
theorem no_submit_while_processing (u : String) : submitAttempt true u = none := rfl

/-- C10: `handleExport` serializes the snapshot with JSON.stringify,
which drops undefined-valued properties: with no resume file the artifact
has no `resume` key at all, with no username no `github` key; the present
keys are exactly `resume` (the file name), `github` (the handle) and
`timestamp` (the toISOString value taken at export time). -/
theorem export_omits_absent_fields (td : TwinData) (nowIso : String) :
    (td.resume = none → td.githubUsername = none →
        handleExport td nowIso = [("timestamp", nowIso)]) ∧
    (∀ u, td.resume = none → td.githubUsername = some u →
        handleExport td nowIso = [("github", u), ("timestamp", nowIso)]) ∧
    (∀ f, td.resume = some f → td.githubUsername = none →
        handleExport td nowIso = [("resume", f.name), ("timestamp", nowIso)]) ∧
    (∀ f u, td.resume = some f → td.githubUsername = some u →
        handleExport td nowIso =
          [("resume", f.name), ("github", u), ("timestamp", nowIso)]) := by
  refine ⟨?_, ?_, ?_, ?_⟩ <;> intros <;>
    simp [handleExport, exportObject, jsonStringifyPairs, *]

theorem export_omits_absent_fields_witness :
    handleExport { resume := none, resumeAnalysis := none,
                   githubUsername := some "octocat", githubData := none }
        "2026-02-03T04:05:06.000Z" =
      [("github", "octocat"), ("timestamp", "2026-02-03T04:05:06.000Z")] :=
  (export_omits_absent_fields _ _).2.1 "octocat" rfl rfl

/-- C3 (evaluating the code at the failing input): the multipart body
`uploadResume` builds for the sample resume consists of the `resume`
field alone — there is no `username` field, so the request to
/resume/analyze does not carry the handle submitted in step 2, although
App.tsx passes it and the repository documentation says it is sent. -/
theorem uploadResume_formdata_has_no_username_field :
    uploadResumeFormData sampleFile = [("resume", .fileVal sampleFile)] ∧
    (uploadResumeFormData sampleFile).map Prod.fst = ["resume"] := ⟨rfl, rfl⟩

/-- Shape of the trace of a run with a resume file present: Stage A call,
its settlement, then the Stage B call. -/
theorem trace_shape (st : AppState) (u : String)
    (rc : JSFile → CallOutcome ResumeAnalysisResponse)
    (gc : String → CallOutcome GitHubAnalysisResponse)
    (f : JSFile) (hres : st.twinData.resume = some f) :
    ∃ b tail, (handleGitHubConnect st u rc gc).2 =
      .callResume f.name :: .resumeSettled b :: .callGitHub u :: tail := by
  rcases hA : rc f with rr | msg
  · rcases hB : gc u with ⟨rs, rd, rm⟩ | m2
    · cases rs
      · exact ⟨true,
          [.alert ("GitHub analysis failed: " ++ orElseStr rm "GitHub analysis failed")],
          by simp [handleGitHubConnect, hres, hA, hB]⟩
      · exact ⟨true, [], by simp [handleGitHubConnect, hres, hA, hB]⟩
    · exact ⟨true, [.alert ("GitHub analysis failed: " ++ m2)],
        by simp [handleGitHubConnect, hres, hA, hB]⟩
  · rcases hB : gc u with ⟨rs, rd, rm⟩ | m2
    · cases rs
      · exact ⟨false,
          [.alert ("GitHub analysis failed: " ++ orElseStr rm "GitHub analysis failed")],
          by simp [handleGitHubConnect, hres, hA, hB]⟩
      · exact ⟨false, [], by simp [handleGitHubConnect, hres, hA, hB]⟩
    · exact ⟨false, [.alert ("GitHub analysis failed: " ++ m2)],
        by simp [handleGitHubConnect, hres, hA, hB]⟩

/-- C1: in every run with a resume file present, Stage A is invoked
(trace index 0) and settles — fulfilment or rejection — (index 1)
strictly before Stage B is invoked (index 2), and every Stage B
invocation in the trace sits strictly after that settlement. -/
theorem stageA_settles_before_stageB (st : AppState) (u : String)
    (rc : JSFile → CallOutcome ResumeAnalysisResponse)
    (gc : String → CallOutcome GitHubAnalysisResponse)
    (f : JSFile) (hres : st.twinData.resume = some f) :
    ((handleGitHubConnect st u rc gc).2.get? 0 = some (.callResume f.name)) ∧
    (∃ b, (handleGitHubConnect st u rc gc).2.get? 1 = some (.resumeSettled b)) ∧
    ((handleGitHubConnect st u rc gc).2.get? 2 = some (.callGitHub u)) ∧
    (∀ n v, (handleGitHubConnect st u rc gc).2.get? n = some (.callGitHub v) →
      1 < n) := by
  obtain ⟨b, tail, htr⟩ := trace_shape st u rc gc f hres
  rw [htr]
  refine ⟨rfl, ⟨b, rfl⟩, rfl, ?_⟩
  intro n v h
  rcases n with _ | _ | n
  · simp [List.get?] at h
  · simp [List.get?] at h
  · omega

theorem stageA_settles_before_stageB_witness :
    ((handleGitHubConnect stateStep2 "octocat"
        (fun _ => CallOutcome.reject "ECONNREFUSED")
        (fun _ => CallOutcome.resolve
          { success := true, data := some sampleGitHubData, message := none })).2.get? 0 =
      some (.callResume "resume.pdf")) ∧
    ((handleGitHubConnect stateStep2 "octocat"
        (fun _ => CallOutcome.reject "ECONNREFUSED")
        (fun _ => CallOutcome.resolve
          { success := true, data := some sampleGitHubData, message := none })).2.get? 2 =
      some (.callGitHub "octocat")) := by
  have h := stageA_settles_before_stageB stateStep2 "octocat"
      (fun _ => CallOutcome.reject "ECONNREFUSED")
      (fun _ => CallOutcome.resolve
        { success := true, data := some sampleGitHubData, message := none })
      sampleFile rfl
  exact ⟨h.1, h.2.2.1⟩

/-- C4: when Stage A rejects and Stage B fulfils with success true, the
run completes: the wizard advances to step 3, `resumeAnalysis` stays
absent, `githubData` holds the payload and `isProcessing` is cleared — a
Stage A failure never aborts the run. -/
theorem stageA_failure_swallowed (st : AppState) (u : String)
    (rc : JSFile → CallOutcome ResumeAnalysisResponse)
    (gc : String → CallOutcome GitHubAnalysisResponse)
    (f : JSFile) (msg : String) (r : GitHubAnalysisResponse) (g : GitHubData)
    (hres : st.twinData.resume = some f)
    (hra : st.twinData.resumeAnalysis = none)
    (hrc : rc f = .reject msg)
    (hgc : gc u = .resolve r) (hs : r.success = true) (hd : r.data = some g) :
    (handleGitHubConnect st u rc gc).1.step = 3 ∧
    (handleGitHubConnect st u rc gc).1.twinData.resumeAnalysis = none ∧
    (handleGitHubConnect st u rc gc).1.twinData.githubData = some g ∧
    (handleGitHubConnect st u rc gc).1.isProcessing = false := by
  simp [handleGitHubConnect, hres, hrc, hgc, hs, hd, hra]

theorem stageA_failure_swallowed_witness :
    ((handleGitHubConnect stateStep2 "octocat"
        (fun _ => CallOutcome.reject "boom")
        (fun _ => CallOutcome.resolve
          { success := true, data := some sampleGitHubData, message := none })).1.step = 3) ∧
    ((handleGitHubConnect stateStep2 "octocat"
        (fun _ => CallOutcome.reject "boom")
        (fun _ => CallOutcome.resolve
          { success := true, data := some sampleGitHubData, message := none })).1.twinData.githubData =
      some sampleGitHubData) := by
  have h := stageA_failure_swallowed stateStep2 "octocat"
      (fun _ => CallOutcome.reject "boom")
      (fun _ => CallOutcome.resolve
        { success := true, data := some sampleGitHubData, message := none })
      sampleFile "boom"
      { success := true, data := some sampleGitHubData, message := none }
      sampleGitHubData rfl rfl rfl rfl rfl rfl
  exact ⟨h.1, h.2.2.1⟩

/-- C5: when Stage B fails — the promise rejects, or the body carries
success false — the run fails: a blocking alert is raised, `step` stays
2, `isProcessing` is cleared and the stored resume file is retained for a
retry. -/
theorem stageB_failure_keeps_step (st : AppState) (u : String)
    (rc : JSFile → CallOutcome ResumeAnalysisResponse)
    (gc : String → CallOutcome GitHubAnalysisResponse)
    (hstep : st.step = 2)
    (hfail : (∃ m, gc u = .reject m) ∨
             (∃ r, gc u = .resolve r ∧ r.success = false)) :
    (handleGitHubConnect st u rc gc).1.step = 2 ∧
    (handleGitHubConnect st u rc gc).1.isProcessing = false ∧
    (handleGitHubConnect st u rc gc).1.twinData.resume = st.twinData.resume ∧
    ∃ m, Event.alert m ∈ (handleGitHubConnect st u rc gc).2 := by
  rcases hfail with ⟨m, hm⟩ | ⟨r, hgc, hs⟩
  · rcases hres : st.twinData.resume with _ | f
    · simp [handleGitHubConnect, hres, hm, hstep]
    · rcases hA : rc f with rr | me
      · simp [handleGitHubConnect, hres, hA, hm, hstep]
      · simp [handleGitHubConnect, hres, hA, hm, hstep]
  · rcases hres : st.twinData.resume with _ | f
    · simp [handleGitHubConnect, hres, hgc, hs, hstep]
    · rcases hA : rc f with rr | me
      · simp [handleGitHubConnect, hres, hA, hgc, hs, hstep]
      · simp [handleGitHubConnect, hres, hA, hgc, hs, hstep]

theorem stageB_failure_keeps_step_witness :
    ((handleGitHubConnect stateStep2 "octocat"
        (fun _ => CallOutcome.reject "boom")
        (fun _ => CallOutcome.reject "Network Error")).1.step = 2) ∧
    ((handleGitHubConnect stateStep2 "octocat"
        (fun _ => CallOutcome.reject "boom")
        (fun _ => CallOutcome.reject "Network Error")).1.twinData.resume =
      some sampleFile) := by
  have h := stageB_failure_keeps_step stateStep2 "octocat"
      (fun _ => CallOutcome.reject "boom")
      (fun _ => CallOutcome.reject "Network Error")
      rfl (Or.inl ⟨"Network Error", rfl⟩)
  exact ⟨h.1, h.2.2.1.trans rfl⟩

/-- C2 (counterexample to the claim as stated): a response that completes
at the transport level but carries success false on the resume call is
not treated as a Stage A failure — the run stores the body's data field
as `resumeAnalysis`, which the claim says must stay absent. -/
theorem stageA_ignores_success_flag_cx :
    ((handleGitHubConnect stateStep2 "octocat"
        (fun _ => CallOutcome.resolve
          { success := false, data := some sampleResumeData,
            message := some "kb quota exceeded" })
        (fun _ => CallOutcome.resolve
          { success := true, data := some sampleGitHubData, message := none })).1.twinData.resumeAnalysis =
      some sampleResumeData) ∧
    ((handleGitHubConnect stateStep2 "octocat"
        (fun _ => CallOutcome.resolve
          { success := false, data := some sampleResumeData,
            message := some "kb quota exceeded" })
        (fun _ => CallOutcome.resolve
          { success := true, data := some sampleGitHubData, message := none })).1.twinData.resumeAnalysis ≠
      none) := by
  refine ⟨rfl, ?_⟩
  intro h
  rw [show (handleGitHubConnect stateStep2 "octocat"
        (fun _ => CallOutcome.resolve
          { success := false, data := some sampleResumeData,
            message := some "kb quota exceeded" })
        (fun _ => CallOutcome.resolve
          { success := true, data := some sampleGitHubData, message := none })).1.twinData.resumeAnalysis =
      some sampleResumeData from rfl] at h
  exact Option.noConfusion h

/-- C2 (amended): for Stage B a fulfilled body with success false is a
failure of the run (blocking alert, step unchanged, isProcessing
cleared); Stage A, however, never inspects the success flag: any
fulfilled resume response stores its data field as `resumeAnalysis`
unconditionally, and only a rejected promise counts as a Stage A
failure. -/
theorem success_flag_branching (st : AppState) (u : String)
    (rc : JSFile → CallOutcome ResumeAnalysisResponse)
    (gc : String → CallOutcome GitHubAnalysisResponse)
    (f : JSFile) (rr : ResumeAnalysisResponse)
    (hres : st.twinData.resume = some f) (hrc : rc f = .resolve rr) :
    ((handleGitHubConnect st u rc gc).1.twinData.resumeAnalysis = rr.data) ∧
    (∀ r, gc u = .resolve r → r.success = false →
      (handleGitHubConnect st u rc gc).1.step = st.step ∧
      (handleGitHubConnect st u rc gc).1.isProcessing = false ∧
      ∃ m, Event.alert m ∈ (handleGitHubConnect st u rc gc).2) := by
  constructor
  · rcases hB : gc u with ⟨rs, rd, rm⟩ | m2
    · cases rs
      · simp [handleGitHubConnect, hres, hrc, hB]
      · simp [handleGitHubConnect, hres, hrc, hB]
    · simp [handleGitHubConnect, hres, hrc, hB]
  · intro r hgc hs
    simp [handleGitHubConnect, hres, hrc, hgc, hs]

theorem success_flag_branching_witness :
    ((handleGitHubConnect stateStep2 "octocat"
        (fun _ => CallOutcome.resolve
          { success := true, data := some sampleResumeData, message := none })
        (fun _ => CallOutcome.resolve
          { success := false, data := none, message := some "user not found" })).1.twinData.resumeAnalysis =
      some sampleResumeData) ∧
    ((handleGitHubConnect stateStep2 "octocat"
        (fun _ => CallOutcome.resolve
          { success := true, data := some sampleResumeData, message := none })
        (fun _ => CallOutcome.resolve
          { success := false, data := none, message := some "user not found" })).1.step = 2) := by
  have h := success_flag_branching stateStep2 "octocat"
      (fun _ => CallOutcome.resolve
        { success := true, data := some sampleResumeData, message := none })
      (fun _ => CallOutcome.resolve
        { success := false, data := none, message := some "user not found" })
      sampleFile
      { success := true, data := some sampleResumeData, message := none }
      rfl rfl
  exact ⟨h.1, (h.2 _ rfl rfl).1⟩

/-- C9: a failed run is not rolled back to its pre-submission value: the
submitted handle stays in `githubUsername`, a fulfilled Stage A keeps its
stored `resumeAnalysis`, the resume file and `githubData` are untouched,
the step is unchanged, and only `isProcessing` is reset to false. -/
theorem failed_run_preserves_state (st : AppState) (u : String)
    (rc : JSFile → CallOutcome ResumeAnalysisResponse)
    (gc : String → CallOutcome GitHubAnalysisResponse)
    (f : JSFile) (rr : ResumeAnalysisResponse) (d : ResumeData)
    (hres : st.twinData.resume = some f)
    (hrc : rc f = .resolve rr) (hsucc : rr.success = true) (hd : rr.data = some d)
    (hfail : (∃ m, gc u = .reject m) ∨
             (∃ r, gc u = .resolve r ∧ r.success = false)) :
    (handleGitHubConnect st u rc gc).1.twinData.githubUsername = some u ∧
    (handleGitHubConnect st u rc gc).1.twinData.resumeAnalysis = some d ∧
    (handleGitHubConnect st u rc gc).1.isProcessing = false ∧
    (handleGitHubConnect st u rc gc).1.step = st.step ∧
    (handleGitHubConnect st u rc gc).1.twinData.resume = st.twinData.resume ∧
    (handleGitHubConnect st u rc gc).1.twinData.githubData = st.twinData.githubData := by
  rcases hfail with ⟨m, hm⟩ | ⟨r, hgc, hs⟩
  · simp [handleGitHubConnect, hres, hrc, hd, hm]
  · simp [handleGitHubConnect, hres, hrc, hd, hgc, hs]

theorem failed_run_preserves_state_witness :
    ((handleGitHubConnect stateStep2 "octocat"
        (fun _ => CallOutcome.resolve
          { success := true, data := some sampleResumeData, message := none })
        (fun _ => CallOutcome.reject "Network Error")).1.twinData.githubUsername =
      some "octocat") ∧
    ((handleGitHubConnect stateStep2 "octocat"
        (fun _ => CallOutcome.resolve
          { success := true, data := some sampleResumeData, message := none })
        (fun _ => CallOutcome.reject "Network Error")).1.twinData.resumeAnalysis =
      some sampleResumeData) := by
  have h := failed_run_preserves_state stateStep2 "octocat"
      (fun _ => CallOutcome.resolve
        { success := true, data := some sampleResumeData, message := none })
      (fun _ => CallOutcome.reject "Network Error")
      sampleFile
      { success := true, data := some sampleResumeData, message := none }
      sampleResumeData rfl rfl rfl rfl (Or.inl ⟨"Network Error", rfl⟩)
  exact ⟨h.1, h.2.1⟩

theorem isAlnumAscii_ne_hyphen {c : Char} (h : isAlnumAscii c = true) : c ≠ '-' := by
  intro he
  subst he
  exact absurd h (by decide)

theorem jsspace_not_alnum {c : Char} (h : isJsSpace c = true) : isAlnumAscii c = false := by
  unfold isJsSpace at h
  have hc : c ∈ jsWhitespaceChars := of_decide_eq_true h
  fin_cases hc <;> decide

theorem pair_rel_iff {a d : Char} (hd : isAlnumAscii d = true ∨ d = '-') :
    noTwoHyphens a d ↔ hyphenThenAlnum a d := by
  unfold noTwoHyphens hyphenThenAlnum
  rcases hd with hd | hd
  · exact ⟨fun _ _ => hd, fun _ h => absurd h.2 (isAlnumAscii_ne_hyphen hd)⟩
  · subst hd
    constructor
    · intro h ha
      exact absurd ⟨ha, rfl⟩ h
    · rintro h ⟨ha, -⟩
      exact absurd (h ha) (by decide)

theorem chain_hyphen_iff : ∀ l : List Char,
    (∀ c ∈ l, isAlnumAscii c = true ∨ c = '-') →
    (List.Chain' noTwoHyphens l ↔ List.Chain' hyphenThenAlnum l) := by
  intro l
  induction l with
  | nil => intro _; simp
  | cons a l ih =>
    intro hchar
    have hl : ∀ c ∈ l, isAlnumAscii c = true ∨ c = '-' :=
      fun c hc => hchar c (List.mem_cons_of_mem _ hc)
    rw [List.chain'_cons', List.chain'_cons', ih hl]
    cases l with
    | nil => simp
    | cons d t =>
      have hd := hl d (List.mem_cons_self _ _)
      constructor
      · rintro ⟨h1, h2⟩
        refine ⟨?_, h2⟩
        intro b hb
        rw [List.head?_cons, Option.mem_some_iff] at hb
        subst hb
        exact (pair_rel_iff hd).mp (h1 d (by simp))
      · rintro ⟨h1, h2⟩
        refine ⟨?_, h2⟩
        intro b hb
        rw [List.head?_cons, Option.mem_some_iff] at hb
        subst hb
        exact (pair_rel_iff hd).mpr (h1 d (by simp))

theorem tailMatch_iff : ∀ l : List Char,
    tailMatch l = true ↔
      ((∀ c ∈ l, isAlnumAscii c = true ∨ c = '-') ∧
       l.getLast? ≠ some '-' ∧ List.Chain' hyphenThenAlnum l) := by
  intro l
  induction l with
  | nil => simp [tailMatch]
  | cons c rest ih =>
    by_cases hc : isAlnumAscii c = true
    · have hcne := isAlnumAscii_ne_hyphen hc
      cases rest with
      | nil => simp [tailMatch, hc, hcne]
      | cons d t =>
        have hstep : tailMatch (c :: d :: t) = tailMatch (d :: t) := by
          simp [tailMatch, hc]
        rw [hstep, ih, List.getLast?_cons_cons]
        constructor
        · rintro ⟨h1, h2, h3⟩
          refine ⟨?_, h2, ?_⟩
          · intro x hx
            rcases List.mem_cons.mp hx with rfl | hx
            · exact Or.inl hc
            · exact h1 x hx
          · exact List.chain'_cons'.mpr ⟨fun b _ hb => absurd hb hcne, h3⟩
        · rintro ⟨h1, h2, h3⟩
          exact ⟨fun x hx => h1 x (List.mem_cons_of_mem _ hx), h2,
                 (List.chain'_cons'.mp h3).2⟩
    · by_cases hh : c = '-'
      · subst hh
        cases rest with
        | nil =>
          rw [show tailMatch [Char.ofNat 45] = false from by decide]
          simp
        | cons d t =>
          have hstep : tailMatch ('-' :: d :: t) = (isAlnumAscii d && tailMatch (d :: t)) := by
            have h45 : isAlnumAscii '-' = false := by decide
            simp [tailMatch, h45]
          rw [hstep, Bool.and_eq_true, ih, List.getLast?_cons_cons]
          constructor
          · rintro ⟨hd, h1, h2, h3⟩
            refine ⟨?_, h2, List.chain'_cons'.mpr ⟨?_, h3⟩⟩
            · intro x hx
              rcases List.mem_cons.mp hx with rfl | hx
              · exact Or.inr rfl
              · exact h1 x hx
            · intro b hb
              rw [List.head?_cons, Option.mem_some_iff] at hb
              subst hb
              exact fun _ => hd
          · rintro ⟨h1, h2, h3⟩
            have hd : isAlnumAscii d = true := by
              have hlink := (List.chain'_cons'.mp h3).1 d (by simp)
              exact hlink rfl
            exact ⟨hd, fun x hx => h1 x (List.mem_cons_of_mem _ hx), h2,
                   (List.chain'_cons'.mp h3).2⟩
      · have hstep : tailMatch (c :: rest) = false := by
          simp [tailMatch, hc, hh]
        rw [hstep]
        constructor
        · intro h
          exact absurd h (by decide)
        · rintro ⟨h1, -, -⟩
          rcases h1 c (List.mem_cons_self _ _) with h | h
          · exact absurd h hc
          · exact absurd h hh

theorem usernameRegexTest_iff_grammar (s : String) :
    usernameRegexTest s = true ↔ GithubHandleGrammar s := by
  unfold usernameRegexTest GithubHandleGrammar
  cases hd : s.data with
  | nil => simp
  | cons c rest =>
    simp only [Bool.and_eq_true, decide_eq_true_eq]
    constructor
    · rintro ⟨⟨hc, hlen⟩, htail⟩
      obtain ⟨hchar, hlast, hchain⟩ := (tailMatch_iff rest).mp htail
      have hcne := isAlnumAscii_ne_hyphen hc
      have hcharall : ∀ x ∈ c :: rest, isAlnumAscii x = true ∨ x = '-' := by
        intro x hx
        rcases List.mem_cons.mp hx with rfl | hx
        · exact Or.inl hc
        · exact hchar x hx
      refine ⟨Nat.succ_le_succ (Nat.zero_le _),
              by simp only [List.length_cons]; omega, hcharall, ?_, ?_, ?_⟩
      · simp [List.head?_cons, hcne]
      · cases rest with
        | nil => simpa using hcne
        | cons d t => rw [List.getLast?_cons_cons]; exact hlast
      · rw [chain_hyphen_iff _ hcharall]
        exact List.chain'_cons'.mpr ⟨fun b _ hb => absurd hb hcne, hchain⟩
    · rintro ⟨-, hlen, hchar, hhead, hlast, hchain⟩
      have hc : isAlnumAscii c = true := by
        rcases hchar c (List.mem_cons_self _ _) with h | h
        · exact h
        · subst h; simp at hhead
      refine ⟨⟨hc, ?_⟩, ?_⟩
      · simp only [List.length_cons] at hlen; omega
      · refine (tailMatch_iff rest).mpr
          ⟨fun x hx => hchar x (List.mem_cons_of_mem _ hx), ?_, ?_⟩
        · cases rest with
          | nil => simp
          | cons d t => rw [List.getLast?_cons_cons] at hlast; exact hlast
        · exact (List.chain'_cons'.mp ((chain_hyphen_iff _ hchar).mp hchain)).2

theorem forall_mem_dropWhile_iff (p : Char → Bool) (l : List Char) :
    (∀ c ∈ l.dropWhile p, p c = true) ↔ ∀ c ∈ l, p c = true := by
  constructor
  · intro h c hc
    rw [← @List.takeWhile_append_dropWhile _ p l] at hc
    rcases List.mem_append.mp hc with hc | hc
    · exact List.mem_takeWhile_imp hc
    · exact h c hc
  · intro h c hc
    exact h c ((List.dropWhile_suffix p).subset hc)

theorem jsTrimList_eq_nil_iff (l : List Char) :
    jsTrimList l = [] ↔ ∀ c ∈ l, isJsSpace c = true := by
  unfold jsTrimList
  rw [List.reverse_eq_nil_iff, List.dropWhile_eq_nil_iff]
  constructor
  · intro h
    exact (forall_mem_dropWhile_iff isJsSpace l).mp
      (fun x hx => h x (List.mem_reverse.mpr hx))
  · intro h x hx
    exact h x ((List.dropWhile_suffix isJsSpace).subset (List.mem_reverse.mp hx))

theorem jsTrim_eq_empty_iff (s : String) :
    jsTrim s = "" ↔ ∀ c ∈ s.data, isJsSpace c = true := by
  rw [← jsTrimList_eq_nil_iff s.data]
  constructor
  · intro h
    exact congrArg String.data h
  · intro h
    unfold jsTrim
    rw [h]

/-- C7: `validateUsername` returns `Accepted` for every handle in the
GitHub grammar — 1 to 39 characters, each alphanumeric or a hyphen,
hyphens neither adjacent to each other nor terminal, case-insensitive
(that grammar is exactly the language of the source regex, by
`usernameRegexTest_iff_grammar`) — returns `Empty` for empty or
whitespace-only input, and returns `InvalidFormat` for every other
handle. -/
theorem validateUsername_spec (s : String) :
    (GithubHandleGrammar s → validateUsername s = .Accepted) ∧
    ((∀ c ∈ s.data, isJsSpace c = true) → validateUsername s = .Empty) ∧
    (¬ GithubHandleGrammar s → ¬(∀ c ∈ s.data, isJsSpace c = true) →
        validateUsername s = .InvalidFormat) := by
  refine ⟨?_, ?_, ?_⟩
  · intro hg
    have htest : usernameRegexTest s = true := (usernameRegexTest_iff_grammar s).mpr hg
    have hne : ¬(jsTrim s = "") := by
      rw [jsTrim_eq_empty_iff]
      intro hall
      obtain ⟨hlen, -, hchar, hhead, -, -⟩ := hg
      cases hd : s.data with
      | nil => rw [hd] at hlen; exact absurd hlen (by decide)
      | cons c rest =>
        have hcmem : c ∈ s.data := by rw [hd]; exact List.mem_cons_self _ _
        have hsp := hall c hcmem
        have halnum : isAlnumAscii c = true := by
          rcases hchar c hcmem with h | h
          · exact h
          · rw [hd] at hhead; subst h; simp at hhead
        have hfalse := jsspace_not_alnum hsp
        rw [halnum] at hfalse
        exact Bool.noConfusion hfalse
    unfold validateUsername
    rw [if_neg hne, if_pos htest]
  · intro hall
    unfold validateUsername
    rw [if_pos ((jsTrim_eq_empty_iff s).mpr hall)]
  · intro hng hnall
    have htest : ¬(usernameRegexTest s = true) :=
      fun h => hng ((usernameRegexTest_iff_grammar s).mp h)
    have hne : ¬(jsTrim s = "") := fun h => hnall ((jsTrim_eq_empty_iff s).mp h)
    unfold validateUsername
    rw [if_neg hne, if_neg htest]

theorem validateUsername_spec_witness :
    validateUsername "octocat" = .Accepted ∧
    validateUsername "" = .Empty ∧
    validateUsername "  " = .Empty ∧
    validateUsername "-bad-" = .InvalidFormat := by
  refine ⟨?_, ?_, ?_, ?_⟩
  · exact (validateUsername_spec "octocat").1
      ((usernameRegexTest_iff_grammar "octocat").mp (by decide))
  · exact (validateUsername_spec "").2.1 (by decide)
  · exact (validateUsername_spec "  ").2.1 (by decide)
  · exact (validateUsername_spec "-bad-").2.2
      (fun hg => absurd ((usernameRegexTest_iff_grammar "-bad-").mpr hg) (by decide))
      (by decide)
